import Mathlib

/-!
Shallow embedding of the task-CRUD HTTP service in `src/main.rs`.

The service exposes four handlers over a MongoDB collection of BSON
documents: `get_tasks` (GET /tasks), `add_task` (POST /tasks),
`update_task` (PUT /tasks/{id}) and `delete_task` (DELETE /tasks/{id}).
We model BSON documents as association lists of field name / value pairs,
ObjectId as its 12-byte payload, the collection as a list of documents,
and each store round-trip outcome (success / failure) explicitly, so that
every handler becomes a pure function from its inputs and the store
outcome to an HTTP response plus the resulting store state.
-/

set_option autoImplicit false

namespace TodoApp

/-- MongoDB ObjectId: a 12-byte identifier (`mongodb::bson::oid::ObjectId`).
We carry the bytes as a list of naturals; well-formed values have twelve
bytes each below 256. -/
structure ObjectId where
  bytes : List Nat
deriving DecidableEq, Repr

/-- The fragment of BSON values the program manipulates: ObjectIds, strings,
and enough other constructors to stand for the "possibly other ignored
fields" a schemaless document may contain. -/
inductive Bson where
  | objectId (oid : ObjectId)
  | str (s : String)
  | int32 (n : Int)
  | boolean (b : Bool)
deriving DecidableEq, Repr

/-- A BSON document (`mongodb::bson::Document`): an ordered list of
field-name/value pairs. -/
abbrev Document := List (String × Bson)

/-- Field lookup in a document: the value at the first occurrence of the
key, as in `Document::get`. -/
def getField : Document → String → Option Bson
  | [], _ => none
  | (k', v) :: rest, k => if k' = k then some v else getField rest k

/-- `Document::get_object_id(key).ok()`: the ObjectId stored at `key`, or
`none` when the key is absent or its value is not an ObjectId. -/
def get_object_id (d : Document) (k : String) : Option ObjectId :=
  match getField d k with
  | some (Bson.objectId oid) => some oid
  | _ => none

/-- `Document::get_str(key).ok()`: the string stored at `key`, or `none`
when the key is absent or its value is not a string. -/
def get_str (d : Document) (k : String) : Option String :=
  match getField d k with
  | some (Bson.str s) => some s
  | _ => none

/-- The value of one lowercase hexadecimal digit character, or `none` for
any non-hex character (character codes: 48–57 are `0`–`9`, 97–102 are
`a`–`f`, 65–70 are `A`–`F`). -/
def hexVal (c : Char) : Option Nat :=
  if 48 ≤ c.toNat ∧ c.toNat ≤ 57 then some (c.toNat - 48)
  else if 97 ≤ c.toNat ∧ c.toNat ≤ 102 then some (c.toNat - 97 + 10)
  else if 65 ≤ c.toNat ∧ c.toNat ≤ 70 then some (c.toNat - 65 + 10)
  else none

/-- Whether a character is a hexadecimal digit (`0`–`9`, `a`–`f`, `A`–`F`). -/
def isHexDigit (c : Char) : Bool :=
  (48 ≤ c.toNat && c.toNat ≤ 57) || (97 ≤ c.toNat && c.toNat ≤ 102)
    || (65 ≤ c.toNat && c.toNat ≤ 70)

/-- Decode a character list as hex byte pairs; fails on odd length or any
non-hex character (as `hex::decode` does). -/
def hexBytes : List Char → Option (List Nat)
  | [] => some []
  | [_] => none
  | c1 :: c2 :: rest =>
    match hexVal c1, hexVal c2, hexBytes rest with
    | some hi, some lo, some bs => some ((16 * hi + lo) :: bs)
    | _, _, _ => none

/-- `ObjectId::parse_str`: succeeds exactly on 24-character hexadecimal
strings, yielding the 12 decoded bytes. -/
def ObjectId.parse_str (s : String) : Option ObjectId :=
  if s.length = 24 then (hexBytes s.data).map ObjectId.mk else none

/-- Two lowercase hex characters for one byte, as `hex::encode` renders it. -/
def byteHex (n : Nat) : List Char :=
  [Nat.digitChar (n / 16), Nat.digitChar (n % 16)]

/-- Lowercase hex characters of a byte list. -/
def bytesHex : List Nat → List Char
  | [] => []
  | b :: rest => byteHex b ++ bytesHex rest

/-- `ObjectId::to_hex`: the 24-character lowercase hexadecimal rendering. -/
def ObjectId.to_hex (o : ObjectId) : String :=
  String.mk (bytesHex o.bytes)

/-- An ObjectId value is well-formed when it has exactly twelve bytes, each
below 256. Every `ObjectId.parse_str` result is well-formed. -/
def validOid (o : ObjectId) : Prop :=
  o.bytes.length = 12 ∧ ∀ b ∈ o.bytes, b < 256

instance (o : ObjectId) : Decidable (validOid o) := by
  unfold validOid; infer_instance

/-- The JSON request body of create and update (`struct Task`): `title`,
plus the optional `_id` field serde deserializes and the handlers ignore. -/
structure Task where
  id : Option String
  title : String
deriving DecidableEq, Repr

/-- An HTTP response body: empty (`finish()`), plain text (`body(...)`), or
a JSON array of flat string objects as `get_tasks` produces (each object an
ordered list of key/value pairs, capturing the exact keys emitted). -/
inductive Body where
  | empty
  | text (s : String)
  | jsonArr (elems : List (List (String × String)))
deriving DecidableEq, Repr

/-- An HTTP response: status code and body. -/
structure Response where
  status : Nat
  body : Body
deriving DecidableEq, Repr

/-- What a handler invocation does: return a response, or panic (an
`unwrap()` on a store error unwinds out of the handler and no response is
produced). -/
inductive HandlerOutcome where
  | resp (r : Response)
  | panicked
deriving DecidableEq, Repr

/-- Result of a handler that touches store state: the response, the store
contents afterwards, and how many store round-trips were issued. -/
structure HandlerStep where
  resp : Response
  store : List Document
  storeCalls : Nat
deriving DecidableEq, Repr

/-- The projection `get_tasks` pushes for one document: when both the
`_id` ObjectId and the `title` string lookups succeed, the JSON object
`{"_id": <hex>, "title": <title>}` (note the key is `_id`), else nothing. -/
def projectDoc (d : Document) : Option (List (String × String)) :=
  match get_object_id d "_id", get_str d "title" with
  | some oid, some title => some [("_id", oid.to_hex), ("title", title)]
  | _, _ => none

/-- The cursor loop of `get_tasks`: per-item `Ok` documents are projected
when both fields are present, everything else (skipped documents and
per-item cursor errors) is dropped. -/
def collectTasks : List (Except Unit Document) → List (List (String × String))
  | [] => []
  | Except.ok d :: rest =>
    match projectDoc d with
    | some el => el :: collectTasks rest
    | none => collectTasks rest
  | Except.error _ :: rest => collectTasks rest

/-- `get_tasks`: takes the outcome of `collection.find(doc! {})` — an error,
or a cursor yielding per-item results. The find result is `unwrap()`ed, so
a find error panics; otherwise the collected projections are returned with
status 200. -/
def get_tasks (findResult : Except Unit (List (Except Unit Document))) :
    HandlerOutcome :=
  match findResult with
  | Except.error _ => HandlerOutcome.panicked
  | Except.ok items =>
    HandlerOutcome.resp ⟨200, Body.jsonArr (collectTasks items)⟩

/-- `add_task`: builds the document `{"title": <title>}` from the body
(ignoring any client-supplied id) and maps the `insert_one` outcome to
201 empty on success, 500 empty on store failure. Returns the response and
the document handed to `insert_one`. -/
def add_task (task : Task) (insertResult : Except Unit Unit) :
    Response × Document :=
  let new_task : Document := [("title", Bson.str task.title)]
  match insertResult with
  | Except.ok _ => (⟨201, Body.empty⟩, new_task)
  | Except.error _ => (⟨500, Body.empty⟩, new_task)

/-- Set a field of a document to a value: overwrite the first occurrence in
place, append when absent (the effect of a `$set` update on one document). -/
def setField : Document → String → Bson → Document
  | [], k, v => [(k, v)]
  | (k', v') :: rest, k, v =>
    if k' = k then (k, v) :: rest else (k', v') :: setField rest k v

/-- `collection.update_one(doc! {"_id": oid}, doc! {"$set": {"title": t}})`:
applies the `$set` to the first document whose `_id` equals `oid`, leaving
all other documents untouched; returns the new collection contents and the
matched count. -/
def update_one (store : List Document) (oid : ObjectId) (title : String) :
    List Document × Nat :=
  match store with
  | [] => ([], 0)
  | d :: rest =>
    if getField d "_id" = some (Bson.objectId oid) then
      (setField d "title" (Bson.str title) :: rest, 1)
    else
      ((d :: (update_one rest oid title).1), (update_one rest oid title).2)

/-- `collection.delete_one(doc! {"_id": oid})`: removes the first document
whose `_id` equals `oid`; returns the new collection contents and the
deleted count. -/
def delete_one (store : List Document) (oid : ObjectId) :
    List Document × Nat :=
  match store with
  | [] => ([], 0)
  | d :: rest =>
    if getField d "_id" = some (Bson.objectId oid) then (rest, 1)
    else ((d :: (delete_one rest oid).1), (delete_one rest oid).2)

/-- `update_task`: parses the path id (400 `"Invalid ID"` on failure,
issuing no store call), then issues `update_one`; a store failure maps to
500 empty, matched count > 0 to 200 empty, otherwise 404 empty. -/
def update_task (store : List Document) (idStr : String) (task : Task)
    (storeFails : Bool) : HandlerStep :=
  match ObjectId.parse_str idStr with
  | none => ⟨⟨400, Body.text "Invalid ID"⟩, store, 0⟩
  | some oid =>
    if storeFails then ⟨⟨500, Body.empty⟩, store, 1⟩
    else if (update_one store oid task.title).2 > 0 then
      ⟨⟨200, Body.empty⟩, (update_one store oid task.title).1, 1⟩
    else
      ⟨⟨404, Body.empty⟩, (update_one store oid task.title).1, 1⟩

/-- `delete_task`: parses the path id (400 `"Invalid ID"` on failure,
issuing no store call), then issues `delete_one`; a store failure maps to
500 empty, deleted count > 0 to 200 empty, otherwise 404 empty. -/
def delete_task (store : List Document) (idStr : String)
    (storeFails : Bool) : HandlerStep :=
  match ObjectId.parse_str idStr with
  | none => ⟨⟨400, Body.text "Invalid ID"⟩, store, 0⟩
  | some oid =>
    if storeFails then ⟨⟨500, Body.empty⟩, store, 1⟩
    else if (delete_one store oid).2 > 0 then
      ⟨⟨200, Body.empty⟩, (delete_one store oid).1, 1⟩
    else
      ⟨⟨404, Body.empty⟩, (delete_one store oid).1, 1⟩

/-- The documents a cursor yielded successfully (its `Ok` items, in order). -/
def okDocs : List (Except Unit Document) → List Document
  | [] => []
  | Except.ok d :: rest => d :: okDocs rest
  | Except.error _ :: rest => okDocs rest

/-- The `_id` ObjectIds stored in a collection, in order. -/
def storedIds (store : List Document) : List ObjectId :=
  store.filterMap fun d => get_object_id d "_id"

/-- A fixed example ObjectId used in concrete witnesses. -/
def exOid : ObjectId :=
  ⟨[1, 2, 3, 4, 5, 6, 7, 8, 9, 10, 11, 12]⟩

/-- A fixed example stored document used in concrete witnesses. -/
def exDoc : Document :=
  [("_id", Bson.objectId exOid), ("title", Bson.str "buy milk")]

/-! ## Helper lemmas -/

/-- Characterisation of a successful per-document projection. -/
theorem projectDoc_eq_some {d : Document} {el : List (String × String)}
    (h : projectDoc d = some el) :
    ∃ o t, get_object_id d "_id" = some o ∧ get_str d "title" = some t ∧
      el = [("_id", o.to_hex), ("title", t)] := by
  unfold projectDoc at h
  cases hio : get_object_id d "_id" with
  | none => rw [hio] at h; cases hit : get_str d "title" <;> rw [hit] at h <;> cases h
  | some o =>
    cases hit : get_str d "title" with
    | none => rw [hio, hit] at h; cases h
    | some t =>
      rw [hio, hit] at h
      exact ⟨o, t, rfl, rfl, (Option.some.inj h).symm⟩

/-- A successful projection exists exactly when both lookups succeed. -/
theorem projectDoc_isSome (d : Document) :
    (projectDoc d).isSome =
      ((get_object_id d "_id").isSome && (get_str d "title").isSome) := by
  unfold projectDoc
  cases get_object_id d "_id" <;> cases get_str d "title" <;> rfl

/-- The cursor loop keeps exactly the successful projections of the
documents the cursor yielded successfully. -/
theorem collectTasks_eq (items : List (Except Unit Document)) :
    collectTasks items = (okDocs items).filterMap projectDoc := by
  induction items with
  | nil => rfl
  | cons x rest ih =>
    cases x with
    | error e => simpa [collectTasks, okDocs] using ih
    | ok d =>
      cases hpd : projectDoc d <;>
        simp [collectTasks, okDocs, hpd, List.filterMap_cons, ih]

/-- A cursor with no per-item errors yields exactly the underlying list. -/
theorem okDocs_map_ok (docs : List Document) :
    okDocs (docs.map Except.ok) = docs := by
  induction docs with
  | nil => rfl
  | cons d rest ih => simpa [okDocs] using ih

/-- Reading back the field `setField` wrote yields the written value. -/
theorem getField_setField_same (d : Document) (k : String) (v : Bson) :
    getField (setField d k v) k = some v := by
  induction d with
  | nil => simp [setField, getField]
  | cons p rest ih =>
    obtain ⟨k', v'⟩ := p
    by_cases hk : k' = k
    · simp [setField, getField, hk]
    · simp [setField, getField, hk, ih]

/-- `setField` leaves every other field unchanged. -/
theorem getField_setField_ne (d : Document) (ks kr : String) (v : Bson)
    (h : kr ≠ ks) : getField (setField d ks v) kr = getField d kr := by
  have hks : ks ≠ kr := fun hh => h hh.symm
  induction d with
  | nil => simp [setField, getField, hks]
  | cons p rest ih =>
    obtain ⟨k', v'⟩ := p
    by_cases hk : k' = ks
    · subst hk
      simp [setField, getField, hks]
    · simp [setField, getField, hk, ih]

/-- `get_object_id` succeeds exactly on an ObjectId-valued field. -/
theorem get_object_id_eq_some {d : Document} {k : String} {o : ObjectId} :
    get_object_id d k = some o ↔ getField d k = some (Bson.objectId o) := by
  unfold get_object_id
  cases getField d k with
  | none => simp
  | some b => cases b <;> simp

/-- Membership in the stored ids is witnessed by a document with that id. -/
theorem mem_storedIds {oid : ObjectId} {store : List Document} :
    oid ∈ storedIds store ↔
      ∃ d ∈ store, getField d "_id" = some (Bson.objectId oid) := by
  unfold storedIds
  rw [List.mem_filterMap]
  constructor
  · rintro ⟨d, hd, h⟩
    exact ⟨d, hd, get_object_id_eq_some.mp h⟩
  · rintro ⟨d, hd, h⟩
    exact ⟨d, hd, get_object_id_eq_some.mpr h⟩

/-- A decoded hex digit is below 16. -/
theorem hexVal_lt {c : Char} {n : Nat} (h : hexVal c = some n) : n < 16 := by
  unfold hexVal at h
  by_cases h1 : 48 ≤ c.toNat ∧ c.toNat ≤ 57
  · rw [if_pos h1] at h
    have := Option.some.inj h
    omega
  · rw [if_neg h1] at h
    by_cases h2 : 97 ≤ c.toNat ∧ c.toNat ≤ 102
    · rw [if_pos h2] at h
      have := Option.some.inj h
      omega
    · rw [if_neg h2] at h
      by_cases h3 : 65 ≤ c.toNat ∧ c.toNat ≤ 70
      · rw [if_pos h3] at h
        have := Option.some.inj h
        omega
      · rw [if_neg h3] at h
        cases h

/-- `hexVal` succeeds exactly on hexadecimal digit characters. -/
theorem hexVal_isSome (c : Char) : (hexVal c).isSome = isHexDigit c := by
  unfold hexVal isHexDigit
  by_cases h1 : 48 ≤ c.toNat ∧ c.toNat ≤ 57
  · simp [h1, h1.1, h1.2]
  · by_cases h2 : 97 ≤ c.toNat ∧ c.toNat ≤ 102
    · simp [h1, h2, h2.1, h2.2]
    · by_cases h3 : 65 ≤ c.toNat ∧ c.toNat ≤ 70
      · simp [h1, h2, h3, h3.1, h3.2]
      · simp only [if_neg h1, if_neg h2, if_neg h3, Option.isSome_none]
        rw [not_and_or] at h1 h2 h3
        rcases h1 with h1 | h1 <;> rcases h2 with h2 | h2 <;>
          rcases h3 with h3 | h3 <;>
          simp [Nat.not_le.mp, *]

/-- The success of a three-way option match used by `hexBytes`. -/
theorem match3_isSome (o1 o2 : Option Nat) (o3 : Option (List Nat)) :
    (match o1, o2, o3 with
      | some hi, some lo, some bs => some ((16 * hi + lo) :: bs)
      | _, _, _ => (none : Option (List Nat))).isSome
      = (o1.isSome && (o2.isSome && o3.isSome)) := by
  cases o1 <;> cases o2 <;> cases o3 <;> rfl

/-- `hexBytes` succeeds exactly on even-length all-hex character lists. -/
theorem hexBytes_isSome : ∀ l : List Char,
    ((hexBytes l).isSome ↔ (l.length % 2 = 0 ∧ ∀ c ∈ l, isHexDigit c))
  | [] => by simp [hexBytes]
  | [c] => by simp [hexBytes]
  | c1 :: c2 :: rest => by
    have ih := hexBytes_isSome rest
    have e1 := hexVal_isSome c1
    have e2 := hexVal_isSome c2
    have hm : hexBytes (c1 :: c2 :: rest) =
        (match hexVal c1, hexVal c2, hexBytes rest with
          | some hi, some lo, some bs => some ((16 * hi + lo) :: bs)
          | _, _, _ => none) := rfl
    rw [hm, match3_isSome, e1, e2]
    simp only [Bool.and_eq_true, List.length_cons, List.mem_cons]
    constructor
    · rintro ⟨h1, h2, hs⟩
      obtain ⟨hlen, hall⟩ := ih.mp hs
      refine ⟨by omega, ?_⟩
      rintro c (rfl | rfl | hc)
      · exact h1
      · exact h2
      · exact hall c hc
    · rintro ⟨hlen, hall⟩
      refine ⟨hall c1 (Or.inl rfl), hall c2 (Or.inr (Or.inl rfl)), ?_⟩
      exact ih.mpr ⟨by omega, fun c hc => hall c (Or.inr (Or.inr hc))⟩

/-- A successful `hexBytes` decode yields half as many bytes, each below
256. -/
theorem hexBytes_valid : ∀ (l : List Char) (bs : List Nat),
    hexBytes l = some bs → 2 * bs.length = l.length ∧ ∀ b ∈ bs, b < 256
  | [], bs, h => by cases Option.some.inj h; simp
  | [c], bs, h => by cases h
  | c1 :: c2 :: rest, bs, h => by
    have ih := hexBytes_valid rest
    unfold hexBytes at h
    cases hv1 : hexVal c1 with
    | none => rw [hv1] at h; cases h
    | some n1 =>
      cases hv2 : hexVal c2 with
      | none => rw [hv1, hv2] at h; cases h
      | some n2 =>
        cases hb : hexBytes rest with
        | none => rw [hv1, hv2, hb] at h; cases h
        | some bs0 =>
          rw [hv1, hv2, hb] at h
          cases Option.some.inj h
          obtain ⟨hlen, hlt⟩ := ih bs0 hb
          refine ⟨by simp only [List.length_cons]; omega, ?_⟩
          intro b hb0
          rcases List.mem_cons.mp hb0 with rfl | hb0
          · have l1 := hexVal_lt hv1
            have l2 := hexVal_lt hv2
            omega
          · exact hlt b hb0

/-- Every identifier `parse_str` accepts is a well-formed 12-byte id. -/
theorem parse_str_valid {s : String} {o : ObjectId}
    (h : ObjectId.parse_str s = some o) : validOid o := by
  unfold ObjectId.parse_str at h
  by_cases hl : s.length = 24
  · rw [if_pos hl] at h
    cases hb : hexBytes s.data with
    | none => rw [hb] at h; cases h
    | some bs =>
      rw [hb] at h
      cases Option.some.inj h
      obtain ⟨hlen, hlt⟩ := hexBytes_valid s.data bs hb
      have hslen : s.data.length = 24 := hl
      exact ⟨by simp only []; omega, hlt⟩
  · rw [if_neg hl] at h
    cases h

/-- `Nat.digitChar` is injective below 16. -/
theorem digitChar_inj : ∀ a < 16, ∀ b < 16,
    Nat.digitChar a = Nat.digitChar b → a = b := by decide

/-- Hex rendering is injective on byte lists. -/
theorem bytesHex_inj (l1 : List Nat) : ∀ l2 : List Nat,
    (∀ b ∈ l1, b < 256) → (∀ b ∈ l2, b < 256) →
    bytesHex l1 = bytesHex l2 → l1 = l2 := by
  induction l1 with
  | nil =>
    intro l2 _ _ h
    cases l2 with
    | nil => rfl
    | cons b r => simp [bytesHex, byteHex] at h
  | cons a r1 ih =>
    intro l2 h1 h2 h
    cases l2 with
    | nil => simp [bytesHex, byteHex] at h
    | cons b r2 =>
      simp only [bytesHex, byteHex, List.cons_append, List.nil_append,
        List.cons.injEq] at h
      obtain ⟨e1, e2, e3⟩ := h
      have ha : a < 256 := h1 a (by simp)
      have hb : b < 256 := h2 b (by simp)
      have q1 : a / 16 = b / 16 :=
        digitChar_inj _ (by omega) _ (by omega) e1
      have q2 : a % 16 = b % 16 :=
        digitChar_inj _ (by omega) _ (by omega) e2
      have : a = b := by omega
      subst this
      rw [ih r2 (fun x hx => h1 x (by simp [hx]))
        (fun x hx => h2 x (by simp [hx])) e3]

/-- `to_hex` is injective on well-formed ObjectIds. -/
theorem to_hex_inj {a b : ObjectId} (ha : validOid a) (hb : validOid b)
    (h : a.to_hex = b.to_hex) : a = b := by
  unfold ObjectId.to_hex at h
  have hd : bytesHex a.bytes = bytesHex b.bytes := by
    have := congrArg String.data h
    simpa using this
  cases a with
  | mk ba =>
    cases b with
    | mk bb =>
      have : ba = bb := bytesHex_inj ba bb ha.2 hb.2 hd
      rw [this]

/-- Structural description of `update_one`: either no document matches and
the collection comes back untouched with matched count 0, or the
collection splits around the first match, whose `title` field alone is
set; every other document is returned unchanged. -/
theorem update_one_split (store : List Document) (oid : ObjectId)
    (t : String) :
    ((update_one store oid t).2 = 0 ∧ (update_one store oid t).1 = store ∧
      ∀ d ∈ store, getField d "_id" ≠ some (Bson.objectId oid)) ∨
    (∃ l d r, store = l ++ d :: r ∧
      (∀ x ∈ l, getField x "_id" ≠ some (Bson.objectId oid)) ∧
      getField d "_id" = some (Bson.objectId oid) ∧
      (update_one store oid t).1 =
        l ++ setField d "title" (Bson.str t) :: r ∧
      (update_one store oid t).2 = 1) := by
  induction store with
  | nil => exact Or.inl ⟨rfl, rfl, by simp⟩
  | cons d rest ih =>
    by_cases hd : getField d "_id" = some (Bson.objectId oid)
    · refine Or.inr ⟨[], d, rest, by simp, by simp, hd, ?_, ?_⟩
      · simp [update_one, hd]
      · simp [update_one, hd]
    · rcases ih with ⟨h0, h1, h2⟩ | ⟨l, d0, r, heq, hl, hd0, hupd, hcnt⟩
      · refine Or.inl ⟨?_, ?_, ?_⟩
        · simp [update_one, hd, h0]
        · simp [update_one, hd, h1]
        · intro x hx
          rcases List.mem_cons.mp hx with rfl | hx
          · exact hd
          · exact h2 x hx
      · refine Or.inr ⟨d :: l, d0, r, by rw [heq, List.cons_append], ?_,
          hd0, ?_, ?_⟩
        · intro x hx
          rcases List.mem_cons.mp hx with rfl | hx
          · exact hd
          · exact hl x hx
        · simp [update_one, hd, hupd]
        · simp [update_one, hd, hcnt]

/-- Structural description of `delete_one`: either no document matches and
the collection comes back untouched with deleted count 0, or the first
match is removed and everything else kept in order. -/
theorem delete_one_split (store : List Document) (oid : ObjectId) :
    ((delete_one store oid).2 = 0 ∧ (delete_one store oid).1 = store ∧
      ∀ d ∈ store, getField d "_id" ≠ some (Bson.objectId oid)) ∨
    (∃ l d r, store = l ++ d :: r ∧
      (∀ x ∈ l, getField x "_id" ≠ some (Bson.objectId oid)) ∧
      getField d "_id" = some (Bson.objectId oid) ∧
      (delete_one store oid).1 = l ++ r ∧
      (delete_one store oid).2 = 1) := by
  induction store with
  | nil => exact Or.inl ⟨rfl, rfl, by simp⟩
  | cons d rest ih =>
    by_cases hd : getField d "_id" = some (Bson.objectId oid)
    · refine Or.inr ⟨[], d, rest, by simp, by simp, hd, ?_, ?_⟩
      · simp [delete_one, hd]
      · simp [delete_one, hd]
    · rcases ih with ⟨h0, h1, h2⟩ | ⟨l, d0, r, heq, hl, hd0, hdel, hcnt⟩
      · refine Or.inl ⟨?_, ?_, ?_⟩
        · simp [delete_one, hd, h0]
        · simp [delete_one, hd, h1]
        · intro x hx
          rcases List.mem_cons.mp hx with rfl | hx
          · exact hd
          · exact h2 x hx
      · refine Or.inr ⟨d :: l, d0, r, by rw [heq, List.cons_append], ?_,
          hd0, ?_, ?_⟩
        · intro x hx
          rcases List.mem_cons.mp hx with rfl | hx
          · exact hd
          · exact hl x hx
        · simp [delete_one, hd, hdel]
        · simp [delete_one, hd, hcnt]

/-- The matched count of `update_one` is positive exactly when some stored
document carries the target id. -/
theorem update_one_count (store : List Document) (oid : ObjectId)
    (t : String) :
    ((update_one store oid t).2 > 0 ↔ oid ∈ storedIds store) := by
  rcases update_one_split store oid t with ⟨h0, _, h2⟩ |
    ⟨l, d, r, heq, _, hd, _, hcnt⟩
  · rw [h0]
    simp only [gt_iff_lt, Nat.lt_irrefl, false_iff]
    intro hmem
    obtain ⟨d, hdm, hdf⟩ := mem_storedIds.mp hmem
    exact h2 d hdm hdf
  · rw [hcnt]
    simp only [gt_iff_lt, Nat.zero_lt_one, true_iff]
    exact mem_storedIds.mpr ⟨d, by rw [heq]; simp, hd⟩

/-- The deleted count of `delete_one` is positive exactly when some stored
document carries the target id. -/
theorem delete_one_count (store : List Document) (oid : ObjectId) :
    ((delete_one store oid).2 > 0 ↔ oid ∈ storedIds store) := by
  rcases delete_one_split store oid with ⟨h0, _, h2⟩ |
    ⟨l, d, r, heq, _, hd, _, hcnt⟩
  · rw [h0]
    simp only [gt_iff_lt, Nat.lt_irrefl, false_iff]
    intro hmem
    obtain ⟨d, hdm, hdf⟩ := mem_storedIds.mp hmem
    exact h2 d hdm hdf
  · rw [hcnt]
    simp only [gt_iff_lt, Nat.zero_lt_one, true_iff]
    exact mem_storedIds.mpr ⟨d, by rw [heq]; simp, hd⟩

/-- The JSON element `get_tasks` produces for `exDoc`. -/
def exEl : List (String × String) :=
  [("_id", "0102030405060708090a0b0c"), ("title", "buy milk")]

/-! ## Claim theorems -/

/-- C1 (amended): every successful list request yields HTTP 200 with a
JSON array whose elements are objects with keys exactly `_id` and `title`
— the handler emits the key `_id`, not `id` — the `_id` value being the
stored document's identifier rendered as a hex string. -/
theorem get_tasks_response_shape (items : List (Except Unit Document)) :
    get_tasks (Except.ok items) =
      HandlerOutcome.resp ⟨200, Body.jsonArr (collectTasks items)⟩ ∧
    ∀ el ∈ collectTasks items,
      el.map Prod.fst = ["_id", "title"] ∧
      ∃ o t d, el = [("_id", ObjectId.to_hex o), ("title", t)] ∧
        Except.ok d ∈ items ∧ get_object_id d "_id" = some o ∧
        get_str d "title" = some t := by
  refine ⟨rfl, ?_⟩
  induction items with
  | nil => intro el hel; cases hel
  | cons x rest ih =>
    cases x with
    | error e =>
      intro el hel
      have hel' : el ∈ collectTasks rest := by
        simpa [collectTasks] using hel
      obtain ⟨hk, o, t, d0, h1, h2, h3, h4⟩ := ih el hel'
      exact ⟨hk, o, t, d0, h1, List.mem_cons_of_mem _ h2, h3, h4⟩
    | ok d =>
      intro el hel
      cases hpd : projectDoc d with
      | none =>
        have hel' : el ∈ collectTasks rest := by
          simpa [collectTasks, hpd] using hel
        obtain ⟨hk, o, t, d0, h1, h2, h3, h4⟩ := ih el hel'
        exact ⟨hk, o, t, d0, h1, List.mem_cons_of_mem _ h2, h3, h4⟩
      | some el0 =>
        have hel' : el = el0 ∨ el ∈ collectTasks rest := by
          simpa [collectTasks, hpd] using hel
        rcases hel' with rfl | hel'
        · obtain ⟨o, t, ho, ht, hel0⟩ := projectDoc_eq_some hpd
          subst hel0
          exact ⟨rfl, o, t, d, rfl, List.mem_cons_self _ _, ho, ht⟩
        · obtain ⟨hk, o, t, d0, h1, h2, h3, h4⟩ := ih el hel'
          exact ⟨hk, o, t, d0, h1, List.mem_cons_of_mem _ h2, h3, h4⟩

/-- Concrete instance of `get_tasks_response_shape` on a one-document
cursor. -/
theorem get_tasks_response_shape_witness :
    exEl.map Prod.fst = ["_id", "title"] ∧
    ∃ o t d, exEl = [("_id", ObjectId.to_hex o), ("title", t)] ∧
      Except.ok d ∈ ([Except.ok exDoc] : List (Except Unit Document)) ∧
      get_object_id d "_id" = some o ∧
      get_str d "title" = some t :=
  (get_tasks_response_shape [Except.ok exDoc]).2 exEl (by decide)

/-- C1 fails as stated: on a store holding one well-formed document, the
emitted object's keys are `_id` and `title`, not `id` and `title`. -/
theorem get_tasks_id_key_counterexample :
    get_tasks (Except.ok [Except.ok exDoc]) =
      HandlerOutcome.resp ⟨200, Body.jsonArr [exEl]⟩ ∧
    exEl.map Prod.fst = ["_id", "title"] ∧
    ¬ exEl.map Prod.fst = ["id", "title"] :=
  ⟨by decide, by decide, by decide⟩

/-- C2 (code bug): when the store's find call fails, `get_tasks` unwraps
the error and panics; it produces no HTTP response at all, in particular
not the 500-with-empty-body the spec promises. -/
theorem get_tasks_find_error_panics :
    get_tasks (Except.error ()) = HandlerOutcome.panicked ∧
    ∀ r : Response, get_tasks (Except.error ()) ≠ HandlerOutcome.resp r :=
  ⟨rfl, fun _ h => HandlerOutcome.noConfusion h⟩

/-- C3: a path identifier that does not parse as an ObjectId makes both
update and delete answer 400 with the plain-text diagnostic `Invalid ID`,
issuing zero store calls and leaving the store unchanged. -/
theorem bad_id_short_circuit (store : List Document) (idStr : String)
    (task : Task) (storeFails : Bool)
    (h : ObjectId.parse_str idStr = none) :
    update_task store idStr task storeFails =
      ⟨⟨400, Body.text "Invalid ID"⟩, store, 0⟩ ∧
    delete_task store idStr storeFails =
      ⟨⟨400, Body.text "Invalid ID"⟩, store, 0⟩ := by
  unfold update_task delete_task
  rw [h]
  exact ⟨rfl, rfl⟩

/-- Concrete instance of `bad_id_short_circuit` at the malformed
identifier `not-an-id`. -/
theorem bad_id_short_circuit_witness :
    update_task [exDoc] "not-an-id" ⟨none, "x"⟩ false =
      ⟨⟨400, Body.text "Invalid ID"⟩, [exDoc], 0⟩ ∧
    delete_task [exDoc] "not-an-id" false =
      ⟨⟨400, Body.text "Invalid ID"⟩, [exDoc], 0⟩ :=
  bad_id_short_circuit [exDoc] "not-an-id" ⟨none, "x"⟩ false (by decide)

/-- C5: create hands the store a document holding only the `title` field —
any client-supplied id in the body is ignored and never stored — and
answers 201 empty on successful insert, 500 empty on store failure;
neither body carries the new identifier. -/
theorem add_task_spec (task : Task) :
    add_task task (Except.ok ()) =
      (⟨201, Body.empty⟩, [("title", Bson.str task.title)]) ∧
    add_task task (Except.error ()) =
      (⟨500, Body.empty⟩, [("title", Bson.str task.title)]) ∧
    (add_task task (Except.ok ())).2.map Prod.fst = ["title"] :=
  ⟨rfl, rfl, rfl⟩

/-- C8: during list, a stored document is projected exactly when both the
`_id` ObjectId lookup and the `title` string lookup succeed; a document
where either lookup fails is silently excluded, and the array is exactly
the projections of the documents having both fields. -/
theorem list_skips_partial_docs (docs : List Document) :
    collectTasks (docs.map Except.ok) = docs.filterMap projectDoc ∧
    (∀ d ∈ docs,
      (get_object_id d "_id" = none ∨ get_str d "title" = none) →
      projectDoc d = none) ∧
    (∀ (d : Document) (o : ObjectId) (t : String),
      get_object_id d "_id" = some o → get_str d "title" = some t →
      projectDoc d = some [("_id", o.to_hex), ("title", t)]) := by
  refine ⟨?_, ?_, ?_⟩
  · rw [collectTasks_eq, okDocs_map_ok]
  · intro d _ h
    unfold projectDoc
    rcases h with h | h
    · rw [h]
    · rw [h]
      cases get_object_id d "_id" <;> rfl
  · intro d o t ho ht
    unfold projectDoc
    rw [ho, ht]

/-- Concrete instance of `list_skips_partial_docs`: a document without a
`title` is dropped, a document with both fields is projected. -/
theorem list_skips_partial_docs_witness :
    projectDoc [("_id", Bson.objectId exOid)] = none ∧
    projectDoc exDoc =
      some [("_id", ObjectId.to_hex exOid), ("title", "buy milk")] :=
  ⟨(list_skips_partial_docs [[("_id", Bson.objectId exOid)]]).2.1 _
      (by decide) (Or.inr (by decide)),
   (list_skips_partial_docs []).2.2 exDoc exOid "buy milk"
      (by decide) (by decide)⟩

/-- C9: a path identifier is well-formed exactly when it is a fixed-length
24-character hexadecimal string — the ObjectId text encoding; every other
string is rejected by `parse_str`. -/
theorem parse_str_wf (s : String) :
    (ObjectId.parse_str s).isSome ↔
      (s.length = 24 ∧ ∀ c ∈ s.data, isHexDigit c) := by
  unfold ObjectId.parse_str
  by_cases hl : s.length = 24
  · rw [if_pos hl]
    have hmap : (Option.map ObjectId.mk (hexBytes s.data)).isSome =
        (hexBytes s.data).isSome := by
      cases hexBytes s.data <;> rfl
    rw [hmap, hexBytes_isSome]
    have hdl : s.data.length = 24 := hl
    simp [hl, hdl]
  · rw [if_neg hl]
    simp [hl]

/-- Concrete instances of `parse_str_wf`: a 24-hex string is accepted,
`not-an-id` is rejected. -/
theorem parse_str_wf_witness :
    (ObjectId.parse_str "0102030405060708090a0b0c").isSome ∧
    ¬ (ObjectId.parse_str "not-an-id").isSome :=
  ⟨(parse_str_wf "0102030405060708090a0b0c").mpr ⟨by decide, by decide⟩,
   fun h => absurd ((parse_str_wf "not-an-id").mp h).1 (by decide)⟩

/-- C10: per-item cursor errors during list are silently discarded — the
handler still answers HTTP 200, and the array holds exactly the
projections of the documents that were read successfully. -/
theorem get_tasks_drops_item_errors (items : List (Except Unit Document)) :
    get_tasks (Except.ok items) =
      HandlerOutcome.resp ⟨200, Body.jsonArr (collectTasks items)⟩ ∧
    collectTasks items = (okDocs items).filterMap projectDoc :=
  ⟨rfl, collectTasks_eq items⟩

/-- C4: with a well-formed identifier, update answers exactly one of 500
(store call failed), 200 (matched count positive) or 404 (matched count
zero); the three outcomes are mutually exclusive and exhaustive. -/
theorem update_task_outcomes (store : List Document) (idStr : String)
    (task : Task) (storeFails : Bool) (oid : ObjectId)
    (h : ObjectId.parse_str idStr = some oid) :
    ((update_task store idStr task storeFails).resp.status = 500 ∨
     (update_task store idStr task storeFails).resp.status = 200 ∨
     (update_task store idStr task storeFails).resp.status = 404) ∧
    ((update_task store idStr task storeFails).resp.status = 500 ↔
      storeFails = true) ∧
    ((update_task store idStr task storeFails).resp.status = 200 ↔
      (storeFails = false ∧ (update_one store oid task.title).2 > 0)) ∧
    ((update_task store idStr task storeFails).resp.status = 404 ↔
      (storeFails = false ∧ (update_one store oid task.title).2 = 0)) := by
  unfold update_task
  rw [h]
  cases storeFails with
  | true => simp
  | false =>
    by_cases hm : (update_one store oid task.title).2 > 0
    · have hz : ¬ (update_one store oid task.title).2 = 0 := by omega
      simp [hm, hz]
    · have hz : (update_one store oid task.title).2 = 0 := by omega
      simp [hm, hz]

/-- Concrete instance of `update_task_outcomes`: updating the one stored
document succeeds with 200. -/
theorem update_task_outcomes_witness :
    ObjectId.parse_str "0102030405060708090a0b0c" = some exOid ∧
    (update_task [exDoc] "0102030405060708090a0b0c" ⟨none, "buy bread"⟩
      false).resp.status = 200 :=
  ⟨by decide,
   (update_task_outcomes [exDoc] "0102030405060708090a0b0c"
      ⟨none, "buy bread"⟩ false exOid (by decide)).2.2.1.mpr
    ⟨rfl, by decide⟩⟩

/-- C6: with a well-formed identifier the issued store operation is a
field-level set of `title` on the first matching document: the collection
either comes back identical (no match) or splits around the matched
document with only its `title` rewritten in place; `setField` preserves
every other field — in particular `_id` — and every other document. -/
theorem update_sets_only_title (store : List Document) (oid : ObjectId)
    (t : String) :
    (((update_one store oid t).2 = 0 ∧
        (update_one store oid t).1 = store) ∨
      ∃ l d r, store = l ++ d :: r ∧
        getField d "_id" = some (Bson.objectId oid) ∧
        (update_one store oid t).1 =
          l ++ setField d "title" (Bson.str t) :: r ∧
        (update_one store oid t).2 = 1) ∧
    (∀ (d : Document) (v : Bson) (k : String), k ≠ "title" →
      getField (setField d "title" v) k = getField d k) ∧
    (∀ (d : Document) (v : Bson),
      getField (setField d "title" v) "title" = some v) := by
  refine ⟨?_, fun d v k hk => getField_setField_ne d "title" k v hk,
    fun d v => getField_setField_same d "title" v⟩
  rcases update_one_split store oid t with ⟨h0, h1, _⟩ |
    ⟨l, d, r, heq, _, hd, hupd, hcnt⟩
  · exact Or.inl ⟨h0, h1⟩
  · exact Or.inr ⟨l, d, r, heq, hd, hupd, hcnt⟩

/-- Concrete instance of `update_sets_only_title`: setting `title` leaves
the `_id` field of `exDoc` untouched. -/
theorem update_sets_only_title_witness :
    getField (setField exDoc "title" (Bson.str "buy bread")) "_id" =
      getField exDoc "_id" :=
  (update_sets_only_title [] exOid "buy bread").2.1 exDoc
    (Bson.str "buy bread") "_id" (by decide)

/-- Reduction of `delete_task` once the identifier parses and the store
call succeeds. -/
theorem delete_task_parsed (store : List Document) (idStr : String)
    (oid : ObjectId) (hp : ObjectId.parse_str idStr = some oid) :
    delete_task store idStr false =
      if (delete_one store oid).2 > 0 then
        ⟨⟨200, Body.empty⟩, (delete_one store oid).1, 1⟩
      else ⟨⟨404, Body.empty⟩, (delete_one store oid).1, 1⟩ := by
  unfold delete_task
  rw [hp]
  simp

/-- `storedIds` distributes over list append. -/
theorem storedIds_append (l r : List Document) :
    storedIds (l ++ r) = storedIds l ++ storedIds r := by
  unfold storedIds
  exact List.filterMap_append l r _

/-- `storedIds` of a cons whose head carries an id. -/
theorem storedIds_cons_some {d : Document} {oid : ObjectId}
    (r : List Document) (h : getField d "_id" = some (Bson.objectId oid)) :
    storedIds (d :: r) = oid :: storedIds r := by
  unfold storedIds
  rw [List.filterMap_cons]
  simp only [get_object_id_eq_some.mpr h]

/-- The store contents after `delete_task` with a parsed identifier and a
successful store call. -/
theorem delete_task_store (store : List Document) (idStr : String)
    (oid : ObjectId) (hp : ObjectId.parse_str idStr = some oid) :
    (delete_task store idStr false).store = (delete_one store oid).1 := by
  rw [delete_task_parsed store idStr oid hp]
  by_cases hc : (delete_one store oid).2 > 0
  · rw [if_pos hc]
  · rw [if_neg hc]

/-- The response of `delete_task` with a parsed identifier and a
successful store call, phrased through the deleted count. -/
theorem delete_task_status (store : List Document) (idStr : String)
    (oid : ObjectId) (hp : ObjectId.parse_str idStr = some oid) :
    ((delete_task store idStr false).resp.status = 200 ↔
      (delete_one store oid).2 > 0) ∧
    ((delete_task store idStr false).resp.status = 404 ↔
      ¬ (delete_one store oid).2 > 0) := by
  rw [delete_task_parsed store idStr oid hp]
  by_cases hc : (delete_one store oid).2 > 0
  · rw [if_pos hc]
    simp [hc]
  · rw [if_neg hc]
    simp [hc]

/-- C7: with a well-formed identifier, over a store whose ids are unique
and well-formed, delete answers 200 exactly when some document carried the
id and 404 exactly when none did; after a successful delete the id is gone
from the store, a second delete of the same id answers 404, and no
subsequent list element carries the deleted id's hex rendering. -/
theorem delete_task_finality (store : List Document) (idStr : String)
    (oid : ObjectId) (hp : ObjectId.parse_str idStr = some oid)
    (hu : (storedIds store).Nodup)
    (hv : ∀ o ∈ storedIds store, validOid o) :
    ((delete_task store idStr false).resp.status = 200 ↔
      oid ∈ storedIds store) ∧
    ((delete_task store idStr false).resp.status = 404 ↔
      oid ∉ storedIds store) ∧
    ((delete_task store idStr false).resp.status = 200 →
      oid ∉ storedIds (delete_task store idStr false).store ∧
      (delete_task (delete_task store idStr false).store idStr
          false).resp.status = 404 ∧
      ∀ el ∈ collectTasks
          ((delete_task store idStr false).store.map Except.ok),
        ("_id", ObjectId.to_hex oid) ∉ el) := by
  have hst := delete_task_store store idStr oid hp
  refine ⟨by
      rw [(delete_task_status store idStr oid hp).1]
      exact delete_one_count store oid,
    by
      rw [(delete_task_status store idStr oid hp).2]
      exact not_congr (delete_one_count store oid), ?_⟩
  intro h200
  have hc : (delete_one store oid).2 > 0 :=
    ((delete_task_status store idStr oid hp).1).mp h200
  rcases delete_one_split store oid with ⟨h0, _, _⟩ |
    ⟨l, d, r, heq, hl, hd, hdel, _⟩
  · exact absurd hc (by omega)
  have hnin : oid ∉ storedIds (delete_task store idStr false).store := by
    rw [hst, hdel, storedIds_append]
    rw [heq, storedIds_append, storedIds_cons_some r hd] at hu
    intro hmem'
    rcases List.mem_append.mp hmem' with hml | hmr
    · exact (List.nodup_append.mp hu).2.2 hml (List.mem_cons_self _ _)
    · exact (List.nodup_cons.mp (List.nodup_append.mp hu).2.1).1 hmr
  refine ⟨hnin, ?_, ?_⟩
  · rw [(delete_task_status (delete_task store idStr false).store idStr
      oid hp).2]
    intro hpos
    exact hnin ((delete_one_count _ oid).mp hpos)
  · intro el hel
    rw [hst, hdel, collectTasks_eq, okDocs_map_ok] at hel
    intro hbad
    obtain ⟨d0, hd0, hproj⟩ := List.mem_filterMap.mp hel
    obtain ⟨o', t, ho', ht, rfl⟩ := projectDoc_eq_some hproj
    have ho'f : getField d0 "_id" = some (Bson.objectId o') :=
      get_object_id_eq_some.mp ho'
    have hd0store : d0 ∈ store := by
      rw [heq]
      rcases List.mem_append.mp hd0 with hx | hx
      · exact List.mem_append.mpr (Or.inl hx)
      · exact List.mem_append.mpr (Or.inr (List.mem_cons_of_mem _ hx))
    have ho'mem : o' ∈ storedIds store :=
      mem_storedIds.mpr ⟨d0, hd0store, ho'f⟩
    have ho'memDel : o' ∈ storedIds (delete_task store idStr false).store := by
      rw [hst, hdel]
      exact mem_storedIds.mpr ⟨d0, hd0, ho'f⟩
    rcases List.mem_cons.mp hbad with hfst | hbad2
    · have hhex : ObjectId.to_hex oid = ObjectId.to_hex o' :=
        congrArg Prod.snd hfst
      have hoe : oid = o' :=
        to_hex_inj (parse_str_valid hp) (hv o' ho'mem) hhex
      exact hnin (hoe ▸ ho'memDel)
    · rcases List.mem_cons.mp hbad2 with hsnd | hnil
      · have hkeys : ("_id" : String) = "title" := congrArg Prod.fst hsnd
        exact absurd hkeys (by decide)
      · cases hnil

/-- Concrete instance of `delete_task_finality`: deleting the one stored
document answers 200. -/
theorem delete_task_finality_witness :
    ObjectId.parse_str "0102030405060708090a0b0c" = some exOid ∧
    (delete_task [exDoc] "0102030405060708090a0b0c" false).resp.status
      = 200 :=
  ⟨by decide,
   (delete_task_finality [exDoc] "0102030405060708090a0b0c" exOid
      (by decide) (by decide) (by decide)).1.mpr (by decide)⟩

end TodoApp
